import Mathlib

/-!
Shallow embedding of the webnis repository (daemon webnis-bind, map server
webnis-server, NSS adapter webnis-nss, PAM adapter webnis-pam) for checking
the natural-language specification against the code.

Strings model Rust byte strings; each Lean Char stands for one byte in the
ASCII range (multi-byte UTF-8 bytes never fall in the ranges the code
inspects, so the byte-level loops of the source coincide with char-level
maps on the ranges that matter). Machine integers are modelled as Nat with
explicit bounds where the source checks them.
-/

/-! ## Common string helpers (models of Rust std behaviour) -/

/-- Model of Rust `str::parse::<u32>()`: optional leading `+`, then one or
more ASCII digits, value below 2^32. -/
def parseU32 (s : String) : Option Nat :=
  let ds := match s.data with
            | '+' :: rest => rest
            | l => l
  if ds = [] then none
  else if ds.all (fun c => '0' ≤ c ∧ c ≤ '9') then
    let n := ds.foldl (fun acc c => acc * 10 + (c.toNat - 48)) 0
    if n < 2 ^ 32 then some n else none
  else none

/-- Model of Rust `str::parse::<u16>()`: optional leading `+`, then one or
more ASCII digits, value below 2^16. -/
def parseU16 (s : String) : Option Nat :=
  match parseU32 s with
  | some n => if n < 2 ^ 16 then some n else none
  | none =>
    -- values in [2^32, 2^16) do not exist; representable digits strings
    -- rejected by parseU32 for the 2^32 bound are also out of u16 range
    none

/-- Model of Rust `str::parse::<i64>()`: optional sign, one or more ASCII
digits, result within the i64 range. -/
def parseI64 (s : String) : Option Int :=
  let (neg, ds) := match s.data with
                   | '+' :: rest => (false, rest)
                   | '-' :: rest => (true, rest)
                   | l => (false, l)
  if ds = [] then none
  else if ds.all (fun c => '0' ≤ c ∧ c ≤ '9') then
    let n : Nat := ds.foldl (fun acc c => acc * 10 + (c.toNat - 48)) 0
    let v : Int := if neg then -(n : Int) else (n : Int)
    if -(2 ^ 63) ≤ v ∧ v ≤ 2 ^ 63 - 1 then some v else none
  else none

/-- Inner loop of `rustSplitN`: `k` is the number of splits still allowed. -/
def rustSplitNGo (sep : Char) : Nat → List Char → List Char → List String
  | _, [], acc => [String.mk acc.reverse]
  | 0, rest, acc => [String.mk (acc.reverse ++ rest)]
  | k + 1, c :: cs, acc =>
    if c = sep then String.mk acc.reverse :: rustSplitNGo sep k cs []
    else rustSplitNGo sep (k + 1) cs (c :: acc)

/-- Model of Rust `str::splitn(n, sep)` for a single-char separator: at most
`n` items, the last item keeps the remaining separators. The empty string
yields `[""]`. -/
def rustSplitN (n : Nat) (sep : Char) (s : String) : List String :=
  match n with
  | 0 => []
  | k + 1 => rustSplitNGo sep k s.data []

/-- Model of Rust `str::split(sep)` for a single-char separator: every
occurrence splits, empty items are kept, the empty string yields `[""]`. -/
def rustSplitChar (sep : Char) (s : String) : List String :=
  s.data.foldr
    (fun c acc =>
      match acc with
      | [] => [String.mk [c]]
      | hd :: tl => if c = sep then "" :: hd :: tl else String.mk (c :: hd.data) :: tl)
    [""]

/-- Model of Rust `str::split_whitespace()`: whitespace-separated non-empty
runs (ASCII whitespace is all that occurs in the data handled here). -/
def rustSplitWhitespace (s : String) : List String :=
  (s.split (fun c => c.isWhitespace)).filter (fun t => t ≠ "")

/-- Byte length of a string (Rust `str::len()`). -/
def strLen (s : String) : Nat := s.utf8ByteSize

/-- Model of Rust `str::starts_with` (and of `String.startsWith`, which
does not reduce in the kernel). -/
def strStartsWith (s pre : String) : Bool := pre.data.isPrefixOf s.data

/-- Hex digit value, for percent decoding. -/
def hexVal (c : Char) : Option Nat :=
  if '0' ≤ c ∧ c ≤ '9' then some (c.toNat - 48)
  else if 'a' ≤ c ∧ c ≤ 'f' then some (c.toNat - 87)
  else if 'A' ≤ c ∧ c ≤ 'F' then some (c.toNat - 55)
  else none

/-- Model of `percent_encoding::percent_decode` on byte strings: a `%`
followed by two hex digits decodes to that byte, anything else is copied. -/
def percentDecodeList : List Char → List Char
  | [] => []
  | '%' :: a :: b :: rest =>
    match hexVal a, hexVal b with
    | some x, some y => Char.ofNat (16 * x + y) :: percentDecodeList rest
    | _, _ => '%' :: percentDecodeList (a :: b :: rest)
  | c :: rest => c :: percentDecodeList rest

def percentDecode (s : String) : String := String.mk (percentDecodeList s.data)

/-- A JSON value (model of `serde_json::Value`); objects are association
lists in serialization order. -/
inductive Json where
  | null : Json
  | bool (b : Bool) : Json
  | num (n : Int) : Json
  | str (s : String) : Json
  | arr (items : List Json) : Json
  | obj (fields : List (String × Json)) : Json

/-- Model of `serde_json::Value::get(key)` on objects: first field with the
given name. -/
def Json.getField : Json → String → Option Json
  | .obj fields, key => (fields.find? (fun f => f.1 = key)).map (·.2)
  | _, _ => none

/-- Model of `serde_json::Value::as_str()`. -/
def Json.asStr : Json → Option String
  | .str s => some s
  | _ => none

/-! ## webnis-bind: request parsing and dispatch (src/webnis-bind/src/request.rs) -/

/-- Model of `enum Cmd` of request.rs. -/
inductive Cmd where
  | Auth | GetPwNam | GetPwUid | GetGrNam | GetGrGid | GetGidList | Servers
deriving DecidableEq, Repr

/-- Model of `struct Request` of request.rs: parsed command, argument list, and the
numeric first argument (only meaningful for GetPwUid / GetGrGid). -/
structure Request where
  cmd  : Cmd
  args : List String
  arg0 : Nat
deriving DecidableEq, Repr

/-- Model of `tolower` of request.rs: ASCII-lowercase a string of at most 16 bytes,
longer strings are returned unchanged. -/
def tolower (s : String) : String :=
  if strLen s > 16 then s
  else String.mk (s.data.map (fun c =>
    if 65 ≤ c.toNat ∧ c.toNat ≤ 90 then Char.ofNat (c.toNat + 32) else c))

/-- Model of `Request::parse` of request.rs. The verb is split off with
`splitn(5, " ")` and lowercased; note that the verb `servers` is mapped to
`Cmd::GetGidList` in the source (request.rs line 324), not to
`Cmd::Servers`. -/
def Request.parse (input : String) : Except String Request :=
  let parts := rustSplitN 5 ' ' input
  match parts with
  | [] => .error "NO"
  | c0 :: args =>
    let c := tolower c0
    let sel : Option (Cmd × Nat × Nat) :=
      if c = "auth" then some (.Auth, 2, 4)
      else if c = "getpwnam" then some (.GetPwNam, 1, 1)
      else if c = "getpwuid" then some (.GetPwUid, 1, 1)
      else if c = "getgrnam" then some (.GetGrNam, 1, 1)
      else if c = "getgrgid" then some (.GetGrGid, 1, 1)
      else if c = "getgidlist" then some (.GetGidList, 1, 1)
      else if c = "servers" then some (.GetGidList, 0, 0)
      else none
    match sel with
    | none => .error ("unknown command " ++ c)
    | some (cmd, argsmin, argsmax) =>
      if args.length < argsmin ∨ args.length > argsmax then
        if argsmin = argsmax then
          .error (c ++ " needs " ++ toString argsmin ++ " arguments")
        else
          .error (c ++ " needs " ++ toString argsmin ++ "-" ++ toString argsmax ++ " arguments")
      else
        if cmd = Cmd.GetPwUid ∨ cmd = Cmd.GetGrGid then
          -- args.length ≥ 1 here because argsmin = 1 for these commands;
          -- the source indexes args[0] directly.
          match parseU32 (args.headD "") with
          | none => .error "Not a number"
          | some n => .ok ⟨cmd, args, n⟩
        else
          .ok ⟨cmd, args, 0⟩

/-- Model of `Response::error` of response.rs: the wire line `CODE text`. -/
def Response.error (code : Nat) (message : String) : String :=
  toString code ++ " " ++ message

/-- Daemon configuration fields used by `process` (config.rs). -/
structure BindConfig where
  restrict_getpwuid : Bool
  restrict_getgrgid : Bool
  domain  : String
  servers : List String
deriving Repr

/-- Session context: config plus peer credentials (main.rs `Context`). -/
structure Context where
  config : BindConfig
  uid : Nat
  gid : Nat
deriving Repr

/-- Server-pool state behind the mutex (main.rs `HttpClient`): whether a
hyper client currently exists, and the seqno of the active server. -/
structure Pool where
  client : Bool
  seqno  : Nat
deriving DecidableEq, Repr

/-- The HTTPS request `process` would hand to `req_with_retries`, by
semantic content (the source renders these into a URL / POST body). -/
inductive HttpReq where
  | auth (user pass : String) (service remote : Option String)
  | mapLookup (map param keyval : String) (cred_uid : Nat)
deriving DecidableEq, Repr

/-- Outcome of `process` before any HTTPS traffic: a local response line, the
local reply of the `Cmd::Servers` branch (seqno / active / server list,
rendered to JSON by the source), or a dispatch to `req_with_retries`
starting at the given try number. -/
inductive ProcOut where
  | res (line : String)
  | resServers (seqno : Nat) (active : Option String) (servers : List String)
  | http (req : HttpReq) (tryNo : Nat)
deriving DecidableEq, Repr

/-- Model of `process` of request.rs up to the hand-off to `req_with_retries`.
Returns `none` where the source would panic on an out-of-bounds
`request.args[i]` index. The construction of the Authorization header
(config schema/token, optional base64) does not influence control flow and
is not modelled. -/
def process (ctx : Context) (pool : Pool) (line : String) : Option ProcOut :=
  match Request.parse line with
  | .error e => some (.res (Response.error 400 e))
  | .ok request =>
    if ctx.config.restrict_getpwuid ∧ request.cmd = Cmd.GetPwUid
       ∧ ctx.uid > 0 ∧ request.arg0 ≠ ctx.uid then
      some (.res (Response.error 403 "Forbidden"))
    else if ctx.config.restrict_getgrgid ∧ request.cmd = Cmd.GetGrGid
       ∧ ctx.uid > 0 ∧ request.arg0 ≥ 1000 ∧ request.arg0 ≠ ctx.gid then
      some (.res (Response.error 403 "Forbidden"))
    else if request.cmd = Cmd.Auth then
      match request.args.get? 0, request.args.get? 1 with
      | some user, some pass =>
        some (.http (.auth user pass (request.args.get? 2) (request.args.get? 3)) 1)
      | _, _ => none
    else if request.cmd = Cmd.Servers then
      -- dead code: Request.parse never yields Cmd.Servers (see the claim on
      -- the servers verb); kept for fidelity to request.rs lines 82-100.
      let active := if pool.client = false then none
                    else ctx.config.servers.get? (pool.seqno % ctx.config.servers.length)
      some (.resServers pool.seqno active ctx.config.servers)
    else
      let mp : String × String :=
        match request.cmd with
        | .GetPwNam => ("passwd", "username")
        | .GetPwUid => ("passwd", "uid")
        | .GetGrNam => ("group", "group")
        | .GetGrGid => ("group", "gid")
        | _ => ("gidlist", "username")   -- GetGidList (other cmds unreachable)
      match request.args.get? 0 with
      | none => none    -- source indexes request.args[0]: panic
      | some keyval => some (.http (.mapLookup mp.1 mp.2 keyval ctx.uid) 0)

/-! ## webnis-bind: retry and failover engine (req_with_retries) -/

def MAX_TRIES : Nat := 8
def RETRY_DELAY_MS : Nat := 250
def REQUEST_TIMEOUT_MS : Nat := 1000

/-- Environmental outcome of one HTTPS attempt, as distinguished by the
future chain in `req_with_retries`:
* `clientErr`: the hyper client failed (connect / TLS / stream error);
* `notJson status`: a response arrived whose Content-Type is not
  `application/json`, with the given HTTP status;
* `jsonBodyErr`: Content-Type was JSON but reading the body failed;
* `timeout`: the 1-second timer fired with no inner error;
* `jsonBody body`: Content-Type was JSON (any HTTP status) and the whole
  body was read. -/
inductive RawOutcome where
  | clientErr (msg : String)
  | notJson (status : Nat)
  | jsonBodyErr
  | timeout
  | jsonBody (body : String)
deriving DecidableEq, Repr

/-- Classification of one attempt by the future chain of
`req_with_retries` (request.rs lines 195-234): errors are the wire strings
built by `Response::error`. -/
def classify : RawOutcome → Except String String
  | .clientErr m => .error (Response.error 550 ("GET error: " ++ m))
  | .notJson status =>
    if 200 ≤ status ∧ status ≤ 299 then
      .error (Response.error 416 "expected application/json")
    else
      .error (Response.error status "HTTP error")
  | .jsonBodyErr => .error (Response.error 400 "GET body error")
  | .timeout => .error (Response.error 408 "request timeout")
  | .jsonBody body => .ok body

/-- One-attempt result plus bookkeeping: final wire line, pool state after,
and the number of attempts made. -/
structure RwrResult where
  result   : String
  pool     : Pool
  attempts : Nat
deriving DecidableEq, Repr

/-- Recursion core of `req_with_retries`, structural on `fuel`. The wrapper
always supplies `fuel = MAX_TRIES + 1 - tryNo`; the retry branch requires
`tryNo < MAX_TRIES`, so on every reachable call `fuel ≥ 1` and the fuel-zero
branch is dead (see rwrGo_fuel_eq below the definitions).
`transform` stands for `Response::transform` (serde JSON decoding of the
body, external to the retry logic). `outcomes i` and `eof i` are the
environment seen by the attempt with try number `i`. -/
def rwrGo (transform : String → String) (outcomes : Nat → RawOutcome)
    (eof : Nat → Bool) : Nat → Pool → Nat → RwrResult
  | 0, pool, _ => ⟨"", pool, 0⟩
  | fuel + 1, pool, tryNo =>
    -- lock; create the client if absent, which also advances seqno
    let pool1 : Pool := if pool.client then pool else ⟨true, pool.seqno + 1⟩
    let seqno := pool1.seqno
    match classify (outcomes tryNo) with
    | .ok body => ⟨transform body, pool1, 1⟩
    | .error e =>
      if ¬ strStartsWith e "401 " ∧ ¬ strStartsWith e "403 " ∧ ¬ strStartsWith e "404 "
         ∧ eof tryNo = false ∧ tryNo < MAX_TRIES then
        -- under the mutex: if nobody else moved seqno, drop the client on a
        -- 550, else advance to the next server
        let pool2 : Pool :=
          if pool1.seqno = seqno then
            if strStartsWith e "550 " then ⟨false, pool1.seqno⟩
            else ⟨pool1.client, pool1.seqno + 1⟩
          else pool1
        let r := rwrGo transform outcomes eof fuel pool2 (tryNo + 1)
        ⟨r.result, r.pool, r.attempts + 1⟩
      else
        ⟨e, pool1, 1⟩

/-- Model of `req_with_retries` of request.rs: attempt, classify, retry with
failover until an attempt is final or `tryNo` reaches `MAX_TRIES`. -/
def reqWithRetries (transform : String → String) (outcomes : Nat → RawOutcome)
    (eof : Nat → Bool) (pool : Pool) (tryNo : Nat) : RwrResult :=
  rwrGo transform outcomes eof (MAX_TRIES + 1 - tryNo) pool tryNo

/-! ## webnis-server: errors (src/webnis-server/src/errors.rs) -/

/-- Model of `enum WnError` of errors.rs (`SerializeJson` payload dropped). -/
inductive WnError where
  | KeyNotFound | MapNotFound | DbOther | SerializeJson | DeserializeData
  | UnknownFormat | LuaError | LuaFunctionNotFound | Other
deriving DecidableEq, Repr

/-! ## webnis-server: format codecs (src/webnis-server/src/format.rs) -/

/-- Model of `enum NumOrText` of format.rs. -/
inductive NumOrText where
  | number (n : Int)
  | text (s : String)
deriving DecidableEq, Repr

/-- Model of `NumOrText::parse`: number when the text parses as i64, text otherwise. -/
def NumOrText.parse (val : String) : NumOrText :=
  match parseI64 val with
  | some v => .number v
  | none => .text val

/-- serde serialization of an untagged `NumOrText` value. -/
def NumOrText.toJson : NumOrText → Json
  | .number n => .num n
  | .text s => .str s

/-- serde_json serialization of a `NumOrText` used as a map key: integer
keys are rendered as their decimal string, text keys verbatim. -/
def NumOrText.toKey : NumOrText → String
  | .number n => toString n
  | .text s => s

/-- Model of `struct Passwd` of format.rs. -/
structure FmtPasswd where
  name   : String
  passwd : String
  uid    : Nat
  gid    : Nat
  gecos  : String
  dir    : String
  shell  : String
deriving DecidableEq, Repr

/-- Model of `Passwd::from_line`: split on `:`, exactly 7 fields, uid/gid u32. -/
def FmtPasswd.from_line (line : String) : Except WnError FmtPasswd :=
  match rustSplitChar ':' line with
  | [f0, f1, f2, f3, f4, f5, f6] =>
    match parseU32 f2, parseU32 f3 with
    | some uid, some gid => .ok ⟨f0, f1, uid, gid, f4, f5, f6⟩
    | _, _ => .error .DeserializeData
  | _ => .error .DeserializeData

/-- serde serialization of `Passwd` (struct field order). -/
def FmtPasswd.toJson (p : FmtPasswd) : Json :=
  .obj [("name", .str p.name), ("passwd", .str p.passwd),
        ("uid", .num p.uid), ("gid", .num p.gid),
        ("gecos", .str p.gecos), ("dir", .str p.dir), ("shell", .str p.shell)]

/-- Model of `struct Adjunct` of format.rs. -/
structure FmtAdjunct where
  name   : String
  passwd : String
deriving DecidableEq, Repr

/-- Model of `Adjunct::from_line`: split on `:`, at least 2 fields. -/
def FmtAdjunct.from_line (line : String) : Except WnError FmtAdjunct :=
  match rustSplitChar ':' line with
  | f0 :: f1 :: _ => .ok ⟨f0, f1⟩
  | _ => .error .DeserializeData

def FmtAdjunct.toJson (a : FmtAdjunct) : Json :=
  .obj [("name", .str a.name), ("passwd", .str a.passwd)]

/-- Model of `struct Group` of format.rs. -/
structure FmtGroup where
  name   : String
  passwd : String
  gid    : Nat
  mem    : List String
deriving DecidableEq, Repr

/-- Model of `Group::from_line`: split on `:`, exactly 4 fields, gid u32, members
comma-separated. -/
def FmtGroup.from_line (line : String) : Except WnError FmtGroup :=
  match rustSplitChar ':' line with
  | [f0, f1, f2, f3] =>
    match parseU32 f2 with
    | some gid => .ok ⟨f0, f1, gid, rustSplitChar ',' f3⟩
    | none => .error .DeserializeData
  | _ => .error .DeserializeData

def FmtGroup.toJson (g : FmtGroup) : Json :=
  .obj [("name", .str g.name), ("passwd", .str g.passwd),
        ("gid", .num g.gid), ("mem", .arr (g.mem.map Json.str))]

/-- Insert with replacement into an association list (Rust `HashMap::insert`;
iteration order of the source HashMap is arbitrary, the model keeps
insertion order). -/
def assocInsert (l : List (String × NumOrText)) (k : String) (v : NumOrText) :
    List (String × NumOrText) :=
  match l with
  | [] => [(k, v)]
  | (k0, v0) :: rest =>
    if k0 = k then (k, v) :: rest else (k0, v0) :: assocInsert rest k v

/-- Model of `HashMap::remove`: the removed value (if any) and the remaining list. -/
def assocRemove (l : List (String × NumOrText)) (k : String) :
    Option NumOrText × List (String × NumOrText) :=
  match l with
  | [] => (none, [])
  | (k0, v0) :: rest =>
    if k0 = k then (some v0, rest)
    else
      let (r, rest2) := assocRemove rest k
      (r, (k0, v0) :: rest2)

/-- The full match of the output-template regex
`^\x7b(IDENT+)(:[a-z])?\x7d$` of format.rs, with the identifier class given
by `allowed`; returns the captured identifier. -/
def templateCapture (allowed : Char → Bool) (v : String) : Option String :=
  match v.data with
  | '{' :: rest =>
    match rest.getLast? with
    | some '}' =>
      let mid := rest.dropLast
      let ident := mid.takeWhile allowed
      let after := mid.drop ident.length
      if ident = [] then none
      else
        match after with
        | [] => some (String.mk ident)
        | [':', c] => if 'a' ≤ c ∧ c ≤ 'z' then some (String.mk ident) else none
        | _ => none
    | _ => none
  | _ => none

/-- Identifier class `[0-9a-zA-Z_-]` of the key-value output regex. -/
def kvIdentChar (c : Char) : Bool :=
  ('0' ≤ c ∧ c ≤ '9') ∨ ('a' ≤ c ∧ c ≤ 'z') ∨ ('A' ≤ c ∧ c ≤ 'Z') ∨ c = '_' ∨ c = '-'

/-- Digit class `[0-9]` of the separated-fields output regex. -/
def digitChar (c : Char) : Bool := '0' ≤ c ∧ c ≤ '9'

/-- Model of Rust `str::parse::<usize>()` (64-bit). -/
def parseUsize (s : String) : Option Nat :=
  let ds := match s.data with
            | '+' :: rest => rest
            | l => l
  if ds = [] then none
  else if ds.all (fun c => '0' ≤ c ∧ c ≤ '9') then
    let n := ds.foldl (fun acc c => acc * 10 + (c.toNat - 48)) 0
    if n < 2 ^ 64 then some n else none
  else none

/-- Model of `KeyValue::from_line` of format.rs: whitespace-split `key=value` tokens
into a map, then optionally apply the output template mapping. `output` is
the configured output HashMap as an association list (iteration order of
the source HashMap is arbitrary; the model iterates in list order). -/
def KeyValue.from_line (line : String) (output : Option (List (String × String))) :
    List (String × NumOrText) :=
  let hm := (rustSplitWhitespace line).foldl
    (fun hm kv =>
      let w := rustSplitN 2 '=' kv
      let k := w.headD ""
      let v := (w.get? 1).getD ""
      assocInsert hm k (NumOrText.parse v))
    []
  match output with
  | none => hm
  | some out =>
    (out.foldl
      (fun (st : List (String × NumOrText) × List (String × NumOrText)) kv =>
        let (hm, res) := st
        match templateCapture kvIdentChar kv.2 with
        | some ident =>
          match assocRemove hm ident with
          | (some val, hm2) => (hm2, assocInsert res kv.1 val)
          | (none, hm2) => (hm2, res)    -- unresolved placeholder: dropped
        | none => (hm, assocInsert res kv.1 (NumOrText.text kv.2)))
      (hm, [])).2

/-- Model of `Fields::from_line` of format.rs: split the line on the separator
(first char of `sep`, whitespace when `sep` is empty); without `output`
produce the map (index+1 as number) ↦ parsed field, with `output` apply the
numeric template mapping. The result is the map as an association list in
insertion order. -/
def Fields.from_line (line : String) (output : Option (List (String × String)))
    (sep : String) : List (NumOrText × NumOrText) :=
  let separator := sep.data.headD '\x00'
  let fields := if separator = '\x00' then rustSplitWhitespace line
                else rustSplitChar separator line
  match output with
  | none =>
    fields.enum.map (fun fv => (NumOrText.number (fv.1 + 1), NumOrText.parse fv.2))
  | some out =>
    out.foldl
      (fun hm kv =>
        let nv :=
          match templateCapture digitChar kv.2 with
          | some ds =>
            match parseUsize ds with
            | some n => if 0 < n ∧ n ≤ fields.length then (fields.get? (n - 1)).getD kv.2
                        else kv.2
            | none => kv.2
          | none => kv.2
        match hm.find? (fun e => e.1 = NumOrText.text kv.1) with
        | some _ => hm.map (fun e => if e.1 = NumOrText.text kv.1
                                     then (e.1, NumOrText.parse nv) else e)
        | none => hm ++ [(NumOrText.text kv.1, NumOrText.parse nv)])
      []

/-- serde_json serialization of the field maps of format.rs. -/
def fieldsToJson (m : List (NumOrText × NumOrText)) : Json :=
  .obj (m.map (fun e => (e.1.toKey, e.2.toJson)))

def kvToJson (m : List (String × NumOrText)) : Json :=
  .obj (m.map (fun e => (e.1, e.2.toJson)))

/-- Model of `enum Format` of format.rs. -/
inductive Format where
  | Passwd | Group | Adjunct | KeyValue | ColSep | WsSep | TabSep | Line | Json
deriving DecidableEq, Repr

/-- Model of `Format::from_str`. -/
def Format.from_str (s : String) : Except WnError Format :=
  if s = "passwd" then .ok .Passwd
  else if s = "group" then .ok .Group
  else if s = "adjunct" then .ok .Adjunct
  else if s = "key-value" then .ok .KeyValue
  else if s = "colon-separated" then .ok .ColSep
  else if s = "whitespace-separated" then .ok .WsSep
  else if s = "tab-separated" then .ok .TabSep
  else if s = "line" then .ok .Line
  else if s = "json" then .ok .Json
  else .error .UnknownFormat

/-- Model of `line_to_json` of format.rs. `jsonParse` stands for
`serde_json::from_str` (external crate), used only by the `json` format.
Note the `line` format delegates to `Fields::from_line` with separator
`"\n"`, so it produces a JSON object, not a bare string. -/
def line_to_json (jsonParse : String → Except Unit Json) (line : String)
    (format : Format) (output : Option (List (String × String))) :
    Except WnError Json :=
  match format with
  | .Passwd => (FmtPasswd.from_line line).map FmtPasswd.toJson
  | .Group => (FmtGroup.from_line line).map FmtGroup.toJson
  | .Adjunct => (FmtAdjunct.from_line line).map FmtAdjunct.toJson
  | .KeyValue => .ok (kvToJson (KeyValue.from_line line output))
  | .ColSep => .ok (fieldsToJson (Fields.from_line line output ":"))
  | .WsSep => .ok (fieldsToJson (Fields.from_line line output ""))
  | .TabSep => .ok (fieldsToJson (Fields.from_line line output "\t"))
  | .Line => .ok (fieldsToJson (Fields.from_line line output "\n"))
  | .Json => (jsonParse line).mapError (fun _ => WnError.SerializeJson)

/-! ## webnis-server: password check and auth endpoint
(src/webnis-server/src/util.rs, src/webnis-server/src/webnis.rs) -/

/-- Model of `check_unix_password` of util.rs: DES-length hashes (13 bytes, no `$`
prefix) are rejected unconditionally; otherwise the percent-decoded
password is checked against the hash by `pwhash::unix::verify`, modelled by
the `verify` parameter (external crate). -/
def check_unix_password (verify : String → String → Bool)
    (passwd pwhash : String) : Bool :=
  if strLen pwhash = 13 ∧ ¬ strStartsWith pwhash "$" then false
  else verify (percentDecode passwd) pwhash

/-- Decoded POST body of the auth endpoint (util.rs `AuthInfo`; the `extra`
fields are only passed to Lua handlers and are not modelled). -/
structure AuthInfo where
  username : String
  password : String
deriving DecidableEq, Repr

/-- Model of `[auth.<name>]` config stanza (config.rs `Auth`). -/
structure AuthRef where
  lua_function : Option String
  map : Option String
  key : Option String
deriving DecidableEq, Repr

/-- A server HTTP response: either `json_result` (body `{"result": ...}`)
or `json_error` (HTTP status `status`, body `{"error": {"code": code,
"message": message}}`). -/
inductive SrvResp where
  | result (status : Nat) (body : Json)
  | err (status : Nat) (code : Nat) (message : String)

/-- Model of `json_error` of util.rs: the outer HTTP status and the inner body code
(defaulting to the outer status). -/
def json_error (outer : Nat) (inner : Option Nat) (msg : String) : SrvResp :=
  .err outer (inner.getD outer) msg

def json_result (status : Nat) (v : Json) : SrvResp := .result status v

/-- Model of `Webnis::auth_map` of webnis.rs. The external parts are parameters:
`findMap` is the `map_type` of the map found by `config.find_map` (or
`none` when no map matches), `lookupRes` the backend lookup of the username
in that map, `verify` the password-hash verifier. A missing key comes back
as `Ok(false)`; only a missing map is `Err(MapNotFound)`. -/
def auth_map (findMap : Option String) (lookupRes : Except WnError Json)
    (verify : String → String → Bool) (passwd : String) : Except WnError Bool :=
  match findMap with
  | none => .error .MapNotFound
  | some map_type =>
    let res : Except WnError Json :=
      if map_type = "gdbm" then lookupRes
      else if map_type = "json" then lookupRes
      else .error .DbOther
    match res with
    | .error .KeyNotFound => .ok false
    | .error e => .error e
    | .ok json =>
      match (json.getField "passwd").bind Json.asStr with
      | none => .ok false
      | some hash => .ok (check_unix_password verify passwd hash)

/-- Model of `Webnis::handle_auth` of webnis.rs. External parts as parameters:
`domainFound` for `config.find_domain`, `authinfo` for
`AuthInfo::from_post_body`, `auth` for the domain auth stanza, `luaResp`
for the whole `lua_auth` branch, and `findMap` / `lookupRes` / `verify` as
in `auth_map`. Returns `none` where the source would panic unwrapping
`auth.map` / `auth.key` (prevented by config validation). -/
def handle_auth (domainFound : Bool) (authinfo : Option AuthInfo)
    (auth : Option AuthRef) (luaResp : SrvResp)
    (findMap : Option String) (lookupRes : Except WnError Json)
    (verify : String → String → Bool) : Option SrvResp :=
  if ¬ domainFound then some (json_error 400 none "Domain not found")
  else
    match authinfo with
    | none => some (json_error 400 none "Body parameters missing")
    | some ai =>
      match auth with
      | none => some (json_error 404 none "Authentication not enabled")
      | some a =>
        match a.lua_function with
        | some _ => some luaResp
        | none =>
          match a.map, a.key with
          | some _, some _ =>
            some (match auth_map findMap lookupRes verify ai.password with
            | .ok true => json_result 200 (.obj [])
            | .ok false => json_error 403 (some 401) "Password incorrect"
            | .error .MapNotFound => json_error 404 none "Associated auth map not found"
            | .error _ => json_error 500 none "Internal server error")
          | _, _ => none

/-- HTTP status of a server response. -/
def SrvResp.status : SrvResp → Nat
  | .result s _ => s
  | .err s _ _ => s

/-- Body error code of a server response (the HTTP status for results). -/
def SrvResp.bodyCode : SrvResp → Nat
  | .result s _ => s
  | .err _ c _ => c

/-! ## webnis-server: gdbm handle cache (src/webnis-server/src/db.rs)

Times are modelled in milliseconds; `SystemTime::duration_since` fails when
the argument lies in the future, and `Duration::as_secs` truncates to whole
seconds. -/

def durationSince (now earlier : Nat) : Option Nat :=
  if earlier ≤ now then some (now - earlier) else none

def asSecs (ms : Nat) : Nat := ms / 1000

/-- Cached gdbm handle state (db.rs `GdbmDb`; the handle itself is not
modelled). `modified` is the file mtime recorded at open
(`metadata.modified().ok()`). -/
structure GdbmDb where
  modified  : Option Nat
  lastcheck : Nat
  lastused  : Nat
deriving DecidableEq, Repr

/-- Model of `gdbm_check` of db.rs. `meta` is the result of `fs::metadata(path)`
followed by `.modified()`: `none` when metadata fails, `some none` when
the mtime is unavailable, `some (some m)` for mtime `m`. Returns the
validity verdict and the updated entry. The recheck happens only when
`as_secs` of the elapsed time exceeds 5. -/
def gdbm_check (meta : Option (Option Nat)) (db : GdbmDb) (now : Nat) :
    Bool × GdbmDb :=
  match durationSince now db.lastcheck with
  | some d =>
    if asSecs d > 5 then
      let valid : Bool :=
        match meta with
        | some mres =>
          (match mres, db.modified with
           | some m1, some m2 => m1 == m2
           | _, _ => false)
        | none => true          -- metadata error: validity untouched
      if valid then (true, { db with lastcheck := now }) else (false, db)
    else (true, db)
  | none => (true, db)

/-- The cache-handling prefix of `gdbm_lookup` in db.rs: reuse a valid
cached handle (touching `lastused`), otherwise drop it and reopen. The
second component is the cache entry afterwards (`none` = handle dropped,
to be replaced by a fresh open). -/
inductive CacheAction where
  | reuse (db : GdbmDb)
  | reopen
deriving DecidableEq, Repr

def gdbm_lookup_cache (meta : Option (Option Nat)) (entry : Option GdbmDb)
    (now : Nat) : CacheAction × Option GdbmDb :=
  match entry with
  | some db =>
    let r := gdbm_check meta db now
    if r.1 then
      let db2 := { r.2 with lastused := now }
      (.reuse db2, some db2)
    else (.reopen, none)
  | none => (.reopen, none)

/-- Model of `Timer::interval` of db.rs over the global weak-reference list. An
element is `none` when the owning Arc is gone, `some none` when the inner
handle was already dropped, `some (some db)` for a live cached handle.
Dead and stale entries are removed (a stale entry's handle is dropped by
`opt_db.take()`). -/
def Timer.interval (now : Nat) : List (Option (Option GdbmDb)) →
    List (Option (Option GdbmDb))
  | [] => []
  | none :: rest => Timer.interval now rest
  | some none :: rest => Timer.interval now rest
  | some (some db) :: rest =>
    match durationSince now db.lastused with
    | some d =>
      if asSecs d > 5 then Timer.interval now rest
      else some (some db) :: Timer.interval now rest
    | none => some (some db) :: Timer.interval now rest

/-! ## webnis-nss: caller-buffer protocol (src/webnis-nss/src/buffer.rs) -/

/-- NSS adapter errors (webnis-nss nss.rs `NssError`). -/
inductive NssError where
  | InsufficientBuffer | NotFound | Unavailable | TryAgainLater
  | TryAgainNow | TimedOut
deriving DecidableEq, Repr

/-- NSS status codes (nss.rs `NssStatus`): TryAgain = -2, Unavailable = -1,
NotFound = 0, Success = 1. -/
def nssTryAgain : Int := -2
def nssUnavailable : Int := -1
def nssNotFound : Int := 0
def nssSuccess : Int := 1

/-- Model of `nss_error` of nss.rs: map an `NssError` to `(errno, status)`; errno
constants by their Linux values (ERANGE = 34, ENOENT = 2, EAGAIN = 11,
ETIMEDOUT = 110). -/
def nss_error : NssError → Nat × Int
  | .InsufficientBuffer => (34, nssTryAgain)
  | .NotFound => (2, nssNotFound)
  | .Unavailable => (11, nssUnavailable)
  | .TryAgainLater => (11, nssTryAgain)
  | .TryAgainNow => (11, nssTryAgain)
  | .TimedOut => (110, nssTryAgain)

/-- Model of `struct Buffer` of buffer.rs: the caller buffer's length, the write
position, and the sticky error. The byte contents are not tracked; strings
are identified by their value in the records below. -/
structure Buffer where
  buflen : Nat
  bufpos : Nat
  res    : Option NssError
deriving DecidableEq, Repr

/-- Model of `Buffer::new`: requires `buflen ≥ 24`, zeroes the buffer and starts
writing at offset 8. -/
def Buffer.new (buflen : Nat) : Except NssError Buffer :=
  if buflen < 24 then .error .InsufficientBuffer
  else .ok ⟨buflen, 8, none⟩

/-- Model of `Buffer::add_string`: append a NUL-terminated string at `bufpos`.
Note the source checks `bufpos + len + 1 >= buflen` (buffer.rs line 48), so
a string that would end exactly at the end of the buffer is rejected. -/
def Buffer.add_string (b : Buffer) (item : String) : Buffer × Except NssError Nat :=
  match b.res with
  | some e => (b, .error e)
  | none =>
    if b.bufpos + strLen item + 1 ≥ b.buflen then
      ({ b with res := some .InsufficientBuffer }, .error .InsufficientBuffer)
    else
      ({ b with bufpos := b.bufpos + strLen item + 1 }, .ok b.bufpos)

/-- Model of `Buffer::add_members`: reserve an aligned NULL-terminated pointer array
(8-byte alignment, 8-byte pointers), then add each member string. Returns
the buffer and the offset of the array. The check is again `>=`
(buffer.rs line 71). -/
def Buffer.add_members (b : Buffer) (members : List String) :
    Buffer × Except NssError Nat :=
  match b.res with
  | some e => (b, .error e)
  | none =>
    let amt := members.length
    let apos := 8 * ((b.bufpos + 7) / 8)
    let sz := (amt + 1) * 8
    if apos + sz ≥ b.buflen then
      ({ b with res := some .InsufficientBuffer }, .error .InsufficientBuffer)
    else
      let b1 := { b with bufpos := apos + sz }
      let b2 := members.foldl (fun acc m => (acc.add_string m).1) b1
      match b2.res with
      | some e => (b2, .error e)
      | none => (b2, .ok apos)

/-- Model of `struct passwd` as filled by the adapter. `none` in a string field means
the pointer still aims at the zeroed start of the buffer (the reset
state). -/
structure PwRecord where
  pw_name   : Option String
  pw_passwd : Option String
  pw_uid    : Nat
  pw_gid    : Nat
  pw_gecos  : Option String
  pw_dir    : Option String
  pw_shell  : Option String
deriving DecidableEq, Repr

def PwRecord.reset : PwRecord := ⟨none, none, 0, 0, none, none, none⟩

/-- One `set_*` string step of buffer.rs `Passwd`: the field is updated only
when `add_string` succeeded. -/
def pwSetStr (st : PwRecord × Buffer) (s : String)
    (put : PwRecord → String → PwRecord) : PwRecord × Buffer :=
  let (b2, r) := st.2.add_string s
  match r with
  | .ok _ => (put st.1 s, b2)
  | .error _ => (st.1, b2)

/-- The buffer-protocol part of a passwd entry point (`Passwd::new` +
`decode_passwd`-order `set_*` calls + `Passwd::result`, buffer.rs and
webnis-nss webnis.rs lines 172-184): fill name, passwd, uid, gid, gecos,
dir, shell into a caller buffer of length `buflen`. Returns the record and
the final result. -/
def fillPasswd (buflen : Nat) (name passwd : String) (uid gid : Nat)
    (gecos dir shell : String) : PwRecord × Except NssError Unit :=
  match Buffer.new buflen with
  | .error e => (PwRecord.reset, .error e)
  | .ok b0 =>
    let st0 : PwRecord × Buffer := (PwRecord.reset, b0)
    let st1 := pwSetStr st0 name (fun r s => { r with pw_name := some s })
    let st2 := pwSetStr st1 passwd (fun r s => { r with pw_passwd := some s })
    let st2b : PwRecord × Buffer := ({ st2.1 with pw_uid := uid, pw_gid := gid }, st2.2)
    let st3 := pwSetStr st2b gecos (fun r s => { r with pw_gecos := some s })
    let st4 := pwSetStr st3 dir (fun r s => { r with pw_dir := some s })
    let st5 := pwSetStr st4 shell (fun r s => { r with pw_shell := some s })
    (st5.1, match st5.2.res with
            | none => .ok ()
            | some e => .error e)

/-- The exact space the pointer area (8 bytes) plus the NUL-terminated
strings of a passwd record occupy in the buffer. -/
def pwNeeded (name passwd gecos dir shell : String) : Nat :=
  8 + (strLen name + 1) + (strLen passwd + 1) + (strLen gecos + 1)
    + (strLen dir + 1) + (strLen shell + 1)

/-! ## webnis-nss: uid↔name fallback (src/webnis-nss/src/nss.rs) -/

/-- Thread-local adapter state: the last successful username→uid pair
(nss.rs `LAST_UID`). -/
structure NssState where
  lastUid : Option (String × Nat)
deriving DecidableEq, Repr

/-- Model of `_nss_webnis_getpwnam_r` (nss.rs lines 166-200), with the daemon
round-trip `webnis.getpwnam` as the oracle `lookupNam` (success yields the
filled record; the caller buffer is assumed adequate). On success the
(name, uid) pair is cached in the thread-local state. -/
def nss_getpwnam_r (lookupNam : String → Except NssError PwRecord)
    (name : String) (st : NssState) : Except NssError PwRecord × NssState :=
  match lookupNam name with
  | .ok rec => (.ok rec, ⟨some (name, rec.pw_uid)⟩)
  | .error e => (.error e, st)

/-- Model of `_nss_webnis_getpwuid_r` (nss.rs lines 204-237): lookup by uid; when it
fails and the cached pair has the same uid, reset the record and retry as a
lookup by the remembered name. -/
def nss_getpwuid_r (lookupNam : String → Except NssError PwRecord)
    (lookupUid : Nat → Except NssError PwRecord)
    (uid : Nat) (st : NssState) : Except NssError PwRecord × NssState :=
  match lookupUid uid with
  | .ok rec => (.ok rec, st)
  | .error e =>
    match st.lastUid with
    | some nu =>
      if nu.2 = uid then (lookupNam nu.1, st) else (.error e, st)
    | none => (.error e, st)

/-! ## webnis-nss: _nss_webnis_initgroups_dyn (src/webnis-nss/src/nss.rs) -/

/-- sizeof(gid_t) on Linux. -/
def sizeofGid : Nat := 4

/-- The fill loop of `_nss_webnis_initgroups_dyn` (nss.rs lines 99-108):
append gids starting at `idx`, stopping when `idx` reaches `limit` after an
increment. Returns the final `idx`. -/
def igFillIdx : Nat → List Nat → Nat → Nat
  | idx, [], _ => idx
  | idx, _ :: gs, limit =>
    if idx + 1 = limit then idx + 1 else igFillIdx (idx + 1) gs limit

/-- Result of `_nss_webnis_initgroups_dyn`: the returned NSS status, the
value of `*start` and the value of `*size` afterwards. -/
structure IgResult where
  status   : Int
  start    : Nat
  size     : Nat
deriving DecidableEq, Repr

/-- Model of `_nss_webnis_initgroups_dyn` (nss.rs lines 46-115). `gidsRes` stands
for the daemon round-trip `webnis.getgidlist(name)`. When the filtered gid
list does not fit, the array is reallocated: the new entry count is
`start + len`, capped at `limit` when `limit > 0`, and the value stored in
`*size` is that count multiplied by sizeof(gid_t) — i.e. a byte count
(nss.rs lines 86-89), although the parameter is documented as counting
gid_t entries (nss.rs line 41). -/
def initgroups_dyn (gidsRes : Except NssError (List Nat)) (skipgid : Nat)
    (start size limit : Nat) : IgResult :=
  match gidsRes with
  | .error e => ⟨(nss_error e).2, start, size⟩
  | .ok gids =>
    let user_gids := gids.filter (fun g => g ≠ skipgid)
    if user_gids.isEmpty then ⟨nssSuccess, start, size⟩
    else
      let idx := start
      let (newSize, _arraysz) :=
        if idx + user_gids.length > size then
          let new_sz := idx + user_gids.length
          let new_sz := if limit = 0 then new_sz else min new_sz limit
          let new_sz := new_sz * sizeofGid
          (new_sz, new_sz)
        else (size, size)
      let finalIdx := igFillIdx idx user_gids limit
      ⟨nssSuccess, finalIdx, newSize⟩

/-! ## webnis-pam: authenticate retry policy (src/webnis-pam/src/webnis.rs) -/

/-- PAM result codes used by the adapter. -/
inductive PamError where
  | SUCCESS | AUTH_ERR | AUTHINFO_UNAVAIL | USER_UNKNOWN
deriving DecidableEq, Repr

/-- Relevant `std::io::ErrorKind` values. -/
inductive IoKind where
  | timedOut | interrupted | connectionRefused | connectionReset
  | brokenPipe | otherKind
deriving DecidableEq, Repr

/-- Model of `from_io_error` of webnis-pam webnis.rs: only TimedOut and Interrupted
become AUTHINFO_UNAVAIL (and are hence retried by `wnbind_auth`); every
other I/O error kind — including a failure to connect to the daemon
socket — becomes AUTH_ERR. -/
def from_io_error : IoKind → PamError
  | .timedOut => .AUTHINFO_UNAVAIL
  | .interrupted => .AUTHINFO_UNAVAIL
  | _ => .AUTH_ERR

/-- Environmental outcome of one `wnbind_try` attempt. -/
inductive TryOutcome where
  | connectErr (k : IoKind)
  | writeErr (k : IoKind)
  | readErr (k : IoKind)
  | reply (line : String)
deriving DecidableEq, Repr

def MAX_TRIES_PAM : Nat := 2
def RETRY_DELAY_MS_PAM : Nat := 2500

/-- Model of `wnbind_try` of webnis-pam webnis.rs: I/O errors through
`from_io_error`; a reply line is split on the first space and its leading
code decides: 2xx ok, 401/403/404 AUTH_ERR, anything else (including a
non-numeric code) AUTHINFO_UNAVAIL. -/
def wnbind_try (o : TryOutcome) : Except PamError Unit :=
  match o with
  | .connectErr k => .error (from_io_error k)
  | .writeErr k => .error (from_io_error k)
  | .readErr k => .error (from_io_error k)
  | .reply line =>
    let num := (rustSplitN 2 ' ' line).headD ""
    match parseU16 num with
    | none => .error .AUTHINFO_UNAVAIL
    | some code =>
      if 200 ≤ code ∧ code ≤ 299 then .ok ()
      else if code = 401 ∨ code = 403 ∨ code = 404 then .error .AUTH_ERR
      else .error .AUTHINFO_UNAVAIL

/-- The `for tries in 0..MAX_TRIES` loop body of `wnbind_auth`. -/
def wnbind_auth_go (outcomes : Nat → TryOutcome) : List Nat → PamError
  | [] => .AUTHINFO_UNAVAIL
  | tries :: rest =>
    match wnbind_try (outcomes tries) with
    | .ok _ => .SUCCESS
    | .error .AUTH_ERR => .AUTH_ERR
    | .error _ =>
      -- sleeps RETRY_DELAY_MS when tries < MAX_TRIES - 1, then loops
      wnbind_auth_go outcomes rest

/-- Model of `wnbind_auth` of webnis-pam webnis.rs: call `wnbind_try` up to
`MAX_TRIES = 2` times; AUTH_ERR is final, success is final, any other
failure sleeps `RETRY_DELAY_MS = 2500` ms and retries; when the loop ends
the result is AUTHINFO_UNAVAIL. `outcomes i` is the environment of attempt
`i`. -/
def wnbind_auth (outcomes : Nat → TryOutcome) : PamError :=
  wnbind_auth_go outcomes (List.range MAX_TRIES_PAM)

/-! # Helper lemmas -/

/-- Splitting on a separator that does not occur yields the whole string. -/
theorem rustSplitChar_eq_single (sep : Char) (s : String) (h : sep ∉ s.data) :
    rustSplitChar sep s = [s] := by
  obtain ⟨l⟩ := s
  have h' : sep ∉ l := h
  clear h
  show rustSplitChar sep (String.mk l) = [String.mk l]
  unfold rustSplitChar
  induction l with
  | nil => rfl
  | cons c cs ih =>
    rw [List.foldr_cons, ih (fun hm => h' (List.mem_cons_of_mem c hm))]
    have hc : ¬ (c = sep) := fun e => h' (e ▸ List.mem_cons_self c cs)
    simp only [hc, if_false]

/-- Exhaustion of the retry loop: when every attempt classifies to a
transient error and the session stays open, `rwrGo` makes exactly `fuel`
attempts (for the in-sync fuel) and surfaces the error of the last try. -/
theorem rwrGo_exhaust (t : String → String) (o : Nat → RawOutcome)
    (ef : Nat → Bool) (e : Nat → String)
    (he : ∀ i, classify (o i) = .error (e i))
    (hf : ∀ i, strStartsWith (e i) "401 " = false
             ∧ strStartsWith (e i) "403 " = false
             ∧ strStartsWith (e i) "404 " = false)
    (heof : ∀ i, ef i = false) :
    ∀ fuel tryNo pool, fuel = MAX_TRIES + 1 - tryNo → tryNo ≤ MAX_TRIES →
      (rwrGo t o ef fuel pool tryNo).attempts = fuel
      ∧ (rwrGo t o ef fuel pool tryNo).result = e MAX_TRIES := by
  intro fuel
  induction fuel with
  | zero =>
    intro tryNo pool hfu hle
    omega
  | succ f ih =>
    intro tryNo pool hfu hle
    obtain ⟨h1, h2, h3⟩ := hf tryNo
    by_cases hlt : tryNo < MAX_TRIES
    · have hfu' : f = MAX_TRIES + 1 - (tryNo + 1) := by omega
      have hle' : tryNo + 1 ≤ MAX_TRIES := by omega
      simp only [rwrGo, he tryNo]
      rw [if_pos ⟨by simp [h1], by simp [h2], by simp [h3], heof tryNo, hlt⟩]
      refine ⟨?_, ?_⟩
      · show (rwrGo t o ef f _ (tryNo + 1)).attempts + 1 = f + 1
        rw [(ih (tryNo + 1) _ hfu' hle').1]
      · show (rwrGo t o ef f _ (tryNo + 1)).result = e MAX_TRIES
        rw [(ih (tryNo + 1) _ hfu' hle').2]
    · have heq : tryNo = MAX_TRIES := by omega
      have hf0 : f = 0 := by omega
      simp only [rwrGo, he tryNo]
      rw [if_neg (fun hcon => hlt hcon.2.2.2.2)]
      exact ⟨by rw [hf0], by rw [heq]⟩

/-! # Claim theorems -/

/-- C2: the spec says the daemon answers the `servers` command locally with
a 200 JSON reply (active / seqno / servers). In the code the parser maps
the verb `servers` to `Cmd::GetGidList` with zero arguments (request.rs
line 324), so the `Cmd::Servers` branch of `process` is unreachable and
`process` panics indexing `request.args[0]` in the map-lookup arm (modelled
as `none`). The spec is the evident intent: the dedicated `Cmd::Servers`
variant and its handler branch exist but are dead. -/
theorem c2_servers_verb_bug :
    Request.parse "servers" = .ok ⟨Cmd.GetGidList, [], 0⟩
    ∧ process ⟨⟨false, false, "default", ["srv1", "srv2"]⟩, 1000, 100⟩ ⟨true, 0⟩ "servers"
        = none :=
  ⟨rfl, by decide⟩

/-- C6 (amended): in the PAM adapter, a 2xx reply is success; a 401/403/404
reply is AUTH_ERR, final with no retry; an outcome mapped to
AUTHINFO_UNAVAIL — a timed-out or interrupted I/O operation, a reply with
any other code, or a garbage reply — sleeps `RETRY_DELAY_MS = 2500` ms and
is retried exactly once, the second failure deciding the result; but an
I/O error of any other kind (connection refused included) maps to AUTH_ERR
and is therefore also final. -/
theorem c6_pam_retry_amended (outcomes : Nat → TryOutcome) :
    (wnbind_try (outcomes 0) = .ok () → wnbind_auth outcomes = .SUCCESS)
    ∧ (wnbind_try (outcomes 0) = .error .AUTH_ERR → wnbind_auth outcomes = .AUTH_ERR)
    ∧ (wnbind_try (outcomes 0) = .error .AUTHINFO_UNAVAIL →
        wnbind_auth outcomes =
          (match wnbind_try (outcomes 1) with
           | .ok _ => .SUCCESS
           | .error .AUTH_ERR => .AUTH_ERR
           | .error _ => .AUTHINFO_UNAVAIL))
    ∧ from_io_error .timedOut = .AUTHINFO_UNAVAIL
    ∧ from_io_error .interrupted = .AUTHINFO_UNAVAIL
    ∧ from_io_error .connectionRefused = .AUTH_ERR
    ∧ RETRY_DELAY_MS_PAM = 2500 := by
  refine ⟨?_, ?_, ?_, rfl, rfl, rfl, rfl⟩
  · intro h
    simp [wnbind_auth, MAX_TRIES_PAM, List.range_succ, wnbind_auth_go, h]
  · intro h
    simp [wnbind_auth, MAX_TRIES_PAM, List.range_succ, wnbind_auth_go, h]
  · intro h
    simp only [wnbind_auth, MAX_TRIES_PAM]
    have hr : List.range 2 = [0, 1] := rfl
    rw [hr]
    simp only [wnbind_auth_go, h]

/-- C6 counterexample: the claim says every non-2xx, non-401/403/404
outcome — connection errors to the daemon socket included — sleeps and is
retried once, ending in AUTHINFO_UNAVAIL. A refused connection is mapped
by `from_io_error` to AUTH_ERR and returned immediately, with no retry. -/
theorem c6_counterexample :
    wnbind_auth (fun _ => .connectErr .connectionRefused) = .AUTH_ERR
    ∧ PamError.AUTH_ERR ≠ PamError.AUTHINFO_UNAVAIL := by decide

/-- C7: with `restrict_getpwuid` enabled, a session whose peer uid is
positive and whose `getpwuid` argument differs from that uid gets the
local reply `403 Forbidden`, with no HTTPS dispatch. -/
theorem c7_restrict_getpwuid (ctx : Context) (pool : Pool) (line : String)
    (req : Request)
    (hre : ctx.config.restrict_getpwuid = true) (hu : 0 < ctx.uid)
    (hp : Request.parse line = .ok req) (hc : req.cmd = Cmd.GetPwUid)
    (ha : req.arg0 ≠ ctx.uid) :
    process ctx pool line = some (.res (Response.error 403 "Forbidden"))
    ∧ Response.error 403 "Forbidden" = "403 Forbidden"
    ∧ ∀ r t, ProcOut.res (Response.error 403 "Forbidden") ≠ ProcOut.http r t := by
  refine ⟨?_, rfl, fun r t h => ProcOut.noConfusion h⟩
  simp only [process, hp]
  rw [if_pos ⟨hre, hc, hu, ha⟩]

/-- C7 witness. -/
theorem c7_witness :
    process ⟨⟨true, false, "default", ["srv1"]⟩, 1000, 1000⟩ ⟨true, 0⟩ "getpwuid 1001"
      = some (.res (Response.error 403 "Forbidden")) :=
  (c7_restrict_getpwuid ⟨⟨true, false, "default", ["srv1"]⟩, 1000, 1000⟩ ⟨true, 0⟩
    "getpwuid 1001" ⟨Cmd.GetPwUid, ["1001"], 1001⟩ rfl (by decide) rfl rfl (by decide)).1

/-- C8: after a successful `getpwnam` for name N returning uid U (which
caches (N, U) thread-locally), a `getpwuid` for U whose direct uid lookup
fails is retried as `getpwnam N` and succeeds with the same record. -/
theorem c8_uid_name_fallback (lookupNam : String → Except NssError PwRecord)
    (lookupUid : Nat → Except NssError PwRecord) (name : String)
    (st0 : NssState) (rec : PwRecord) (err : NssError)
    (hnam : lookupNam name = .ok rec)
    (huid : lookupUid rec.pw_uid = .error err) :
    (nss_getpwnam_r lookupNam name st0).1 = .ok rec
    ∧ (nss_getpwuid_r lookupNam lookupUid rec.pw_uid
        (nss_getpwnam_r lookupNam name st0).2).1 = .ok rec := by
  simp [nss_getpwnam_r, nss_getpwuid_r, hnam, huid]

/-- C8 witness: the end-to-end scenario of the spec (truus, uid 1042) with
a uid index that always fails. -/
theorem c8_witness :
    (nss_getpwuid_r
      (fun n => if n = "truus"
                then .ok ⟨some "truus", some "x", 1042, 42, some "Truus", some "/home/truus", some ""⟩
                else .error .NotFound)
      (fun _ => .error .NotFound)
      1042
      (nss_getpwnam_r
        (fun n => if n = "truus"
                  then .ok ⟨some "truus", some "x", 1042, 42, some "Truus", some "/home/truus", some ""⟩
                  else .error .NotFound)
        "truus" ⟨none⟩).2).1
    = .ok ⟨some "truus", some "x", 1042, 42, some "Truus", some "/home/truus", some ""⟩ :=
  (c8_uid_name_fallback
    (fun n => if n = "truus"
              then .ok ⟨some "truus", some "x", 1042, 42, some "Truus", some "/home/truus", some ""⟩
              else .error .NotFound)
    (fun _ => .error .NotFound)
    "truus" ⟨none⟩
    ⟨some "truus", some "x", 1042, 42, some "Truus", some "/home/truus", some ""⟩
    .NotFound rfl rfl).2

/-- C9 (amended): with times in milliseconds and `Duration::as_secs`
truncation, a lookup rechecks the mtime (and drops the handle on mismatch,
or on an unreadable mtime) only when the truncated elapsed seconds since
the last check exceed 5, i.e. at least 6 whole seconds have passed; on a
matching mtime the handle is kept and the check time refreshed; and the
housekeeping pass reaps exactly the live entries whose truncated idle
seconds exceed 5. -/
theorem c9_cache_refresh_amended :
    (∀ (mres : Option Nat) (db : GdbmDb) (now : Nat),
      db.lastcheck ≤ now → 5 < (now - db.lastcheck) / 1000 →
      (match mres, db.modified with
       | some m1, some m2 => m1 ≠ m2
       | _, _ => True) →
      gdbm_lookup_cache (some mres) (some db) now = (.reopen, none))
    ∧ (∀ (db : GdbmDb) (now m : Nat),
      db.lastcheck ≤ now → 5 < (now - db.lastcheck) / 1000 →
      db.modified = some m →
      gdbm_lookup_cache (some (some m)) (some db) now =
        (.reuse ⟨db.modified, now, now⟩, some ⟨db.modified, now, now⟩))
    ∧ (∀ (now : Nat) (l : List (Option (Option GdbmDb))),
      Timer.interval now l =
        l.filter (fun entry =>
          match entry with
          | some (some db) => decide (db.lastused ≤ now ∧ 5 < (now - db.lastused) / 1000) = false
          | _ => false)) := by
  refine ⟨?_, ?_, ?_⟩
  · intro mres db now hle hd hmm
    simp only [gdbm_lookup_cache, gdbm_check, durationSince, hle, if_pos, asSecs]
    rw [if_pos hd]
    rcases mres with _ | m1 <;> rcases hmod : db.modified with _ | m2 <;>
      simp_all
  · intro db now m hle hd hmod
    simp only [gdbm_lookup_cache, gdbm_check, durationSince, hle, if_pos, asSecs, hmod]
    rw [if_pos hd]
    simp
  · intro now l
    induction l with
    | nil => rfl
    | cons hd tl ih =>
      rcases hd with _ | hd
      · simpa [Timer.interval, List.filter] using ih
      · rcases hd with _ | db
        · simpa [Timer.interval, List.filter] using ih
        · by_cases hle : db.lastused ≤ now
          · by_cases hgt : 5 < (now - db.lastused) / 1000
            · simp [Timer.interval, durationSince, hle, asSecs, hgt, List.filter, ih]
            · simp [Timer.interval, durationSince, hle, asSecs, hgt, List.filter, ih]
          · simp [Timer.interval, durationSince, hle, asSecs, List.filter, ih]

/-- C9 witness: at 6001 ms elapsed with a changed mtime the handle is
dropped and reopened; an entry idle for 6001 ms is reaped. -/
theorem c9_witness :
    gdbm_lookup_cache (some (some 1)) (some ⟨some 0, 0, 0⟩) 6001 = (.reopen, none)
    ∧ Timer.interval 6001 [some (some ⟨some 0, 0, 0⟩)] = [] :=
  ⟨(c9_cache_refresh_amended.1 (some 1) ⟨some 0, 0, 0⟩ 6001 (by decide) (by decide)
      (by decide)),
   by rw [c9_cache_refresh_amended.2.2 6001]; decide⟩

/-- C9 counterexample: the claim triggers the recheck and the reaping as
soon as more than 5 seconds (here 5.5 s = 5500 ms) have passed, but the
code compares `Duration::as_secs() > 5`, so at 5500 ms neither the mtime
recheck (the mtime differs here, yet the handle stays valid and untouched)
nor the reap happens. -/
theorem c9_counterexample :
    gdbm_check (some (some 1)) ⟨some 0, 0, 0⟩ 5500 = (true, ⟨some 0, 0, 0⟩)
    ∧ Timer.interval 5500 [some (some ⟨some 0, 0, 0⟩)] = [some (some ⟨some 0, 0, 0⟩)]
    ∧ 5 * 1000 < 5500 := by decide

/-- C10: when `_nss_webnis_initgroups_dyn` must grow the caller's array,
the value written through `*size` is a byte count — the new entry count
(start + new gids, capped at `limit` when `limit > 0`) times sizeof(gid_t)
— and not the entry count itself; when no growth is needed `*size` is left
unchanged. -/
theorem c10_initgroups_size_bytes (gids : List Nat) (skipgid start size limit : Nat) :
    ((gids.filter (fun g => g ≠ skipgid)) ≠ [] →
     start + (gids.filter (fun g => g ≠ skipgid)).length > size →
      (initgroups_dyn (.ok gids) skipgid start size limit).size =
        (if limit = 0 then start + (gids.filter (fun g => g ≠ skipgid)).length
         else min (start + (gids.filter (fun g => g ≠ skipgid)).length) limit) * sizeofGid)
    ∧ ((gids.filter (fun g => g ≠ skipgid)) ≠ [] →
       start + (gids.filter (fun g => g ≠ skipgid)).length > size →
      (initgroups_dyn (.ok gids) skipgid start size limit).size ≠
        (if limit = 0 then start + (gids.filter (fun g => g ≠ skipgid)).length
         else min (start + (gids.filter (fun g => g ≠ skipgid)).length) limit))
    ∧ (start + (gids.filter (fun g => g ≠ skipgid)).length ≤ size →
      (initgroups_dyn (.ok gids) skipgid start size limit).size = size)
    ∧ ((gids.filter (fun g => g ≠ skipgid)) = [] →
      (initgroups_dyn (.ok gids) skipgid start size limit).size = size) := by
  have hemp : ∀ (l : List Nat), l ≠ [] → l.isEmpty = false := by
    intro l hl
    cases l with
    | nil => exact absurd rfl hl
    | cons a as => rfl
  refine ⟨?_, ?_, ?_, ?_⟩
  · intro hne hgt
    simp only [initgroups_dyn, hemp _ hne, Bool.false_eq_true, if_false]
    rw [if_pos hgt]
  · intro hne hgt
    have hlen : 0 < (gids.filter (fun g => g ≠ skipgid)).length :=
      List.length_pos.mpr hne
    simp only [initgroups_dyn, hemp _ hne, Bool.false_eq_true, if_false]
    rw [if_pos hgt]
    simp only [sizeofGid]
    split
    · omega
    · rename_i hlim
      have hl1 : 0 < limit := Nat.pos_of_ne_zero hlim
      have : 0 < min (start + (gids.filter (fun g => g ≠ skipgid)).length) limit := by
        omega
      omega
  · intro hle
    by_cases hne : (gids.filter (fun g => g ≠ skipgid)) = []
    · simp only [initgroups_dyn, hne, List.isEmpty_nil, if_true]
    · simp only [initgroups_dyn, hemp _ hne, Bool.false_eq_true, if_false]
      rw [if_neg (by omega)]
  · intro hne
    simp only [initgroups_dyn, hne, List.isEmpty_nil, if_true]

/-- C10 witness: the initgroups-growth scenario of the spec — capacity 4,
start 0, limit 0, 14 gids: `*size` becomes 14 × 4 = 56 bytes (not 14), and
with a large enough array (capacity 20) `*size` stays 20. -/
theorem c10_witness :
    (initgroups_dyn (.ok [1,2,3,4,5,6,7,8,9,10,11,12,13,14]) 0 0 4 0).size = 56
    ∧ (initgroups_dyn (.ok [1,2,3,4,5,6,7,8,9,10,11,12,13,14]) 0 0 20 0).size = 20 :=
  ⟨by rw [(c10_initgroups_size_bytes [1,2,3,4,5,6,7,8,9,10,11,12,13,14] 0 0 4 0).1
      (by decide) (by decide)]; decide,
   (c10_initgroups_size_bytes [1,2,3,4,5,6,7,8,9,10,11,12,13,14] 0 0 20 0).2.2.1
      (by decide)⟩

/-- C6 witness: a timed-out read on the first attempt retries once; the
second attempt answers 500, so the adapter ends with AUTHINFO_UNAVAIL. -/
theorem c6_witness :
    wnbind_auth (fun i => if i = 0 then .readErr .timedOut else .reply "500 err")
      = .AUTHINFO_UNAVAIL := by
  have h := (c6_pam_retry_amended
    (fun i => if i = 0 then .readErr .timedOut else .reply "500 err")).2.2.1 rfl
  exact h.trans rfl

/-- C3 (amended): in the retry engine, (i) a non-JSON response of status
401, 403 or 404 is surfaced after a single attempt with no failover; (ii)
any response with JSON content type — whatever its HTTP status — is
surfaced through the body transform with no retry; (iii) a transient
failure (550 client fault, 2xx non-JSON as 416, other non-JSON statuses,
body error 400, timeout 408) retries on the next try number, a 550
discarding the HTTPS client and any other transient failure advancing
seqno; (iv) when every attempt fails transiently and the session stays
open the engine makes MAX_TRIES + 1 - tryNo attempts and surfaces the last
error — auth requests enter at try 1 (so at most 8 attempts), map lookups
at try 0 (so 9 attempts, one more than MAX_TRIES); (v)-(vi) the dispatch
try numbers: `process` hands auth requests to the engine with try number 1
and map lookups with try number 0. -/
theorem c3_retry_policy_amended (t : String → String) (o : Nat → RawOutcome)
    (ef : Nat → Bool) (pool : Pool) (tryNo : Nat) (htry : tryNo ≤ MAX_TRIES) :
    (∀ status, status = 401 ∨ status = 403 ∨ status = 404 →
      o tryNo = .notJson status →
      reqWithRetries t o ef pool tryNo =
        ⟨Response.error status "HTTP error",
         if pool.client then pool else ⟨true, pool.seqno + 1⟩, 1⟩)
    ∧ (∀ body, o tryNo = .jsonBody body →
      reqWithRetries t o ef pool tryNo =
        ⟨t body, if pool.client then pool else ⟨true, pool.seqno + 1⟩, 1⟩)
    ∧ (∀ e, classify (o tryNo) = .error e →
      strStartsWith e "401 " = false → strStartsWith e "403 " = false →
      strStartsWith e "404 " = false → ef tryNo = false → tryNo < MAX_TRIES →
      reqWithRetries t o ef pool tryNo =
        (let p1 : Pool := if pool.client then pool else ⟨true, pool.seqno + 1⟩
         let p2 : Pool := if strStartsWith e "550 " then ⟨false, p1.seqno⟩
                          else ⟨p1.client, p1.seqno + 1⟩
         let r := reqWithRetries t o ef p2 (tryNo + 1)
         ⟨r.result, r.pool, r.attempts + 1⟩))
    ∧ (∀ e : Nat → String, (∀ i, classify (o i) = .error (e i)) →
      (∀ i, strStartsWith (e i) "401 " = false ∧ strStartsWith (e i) "403 " = false
            ∧ strStartsWith (e i) "404 " = false) →
      (∀ i, ef i = false) →
      (reqWithRetries t o ef pool tryNo).attempts = MAX_TRIES + 1 - tryNo
      ∧ (reqWithRetries t o ef pool tryNo).result = e MAX_TRIES)
    ∧ (∀ (ctx : Context) (pl : Pool) (line : String) (req : Request) (u p : String),
      Request.parse line = .ok req → req.cmd = Cmd.Auth →
      req.args.get? 0 = some u → req.args.get? 1 = some p →
      process ctx pl line
        = some (.http (.auth u p (req.args.get? 2) (req.args.get? 3)) 1))
    ∧ (∀ (ctx : Context) (pl : Pool) (line : String) (req : Request) (u : String),
      Request.parse line = .ok req → req.cmd = Cmd.GetPwNam →
      req.args.get? 0 = some u →
      process ctx pl line
        = some (.http (.mapLookup "passwd" "username" u ctx.uid) 0)) := by
  have hfuel : MAX_TRIES + 1 - tryNo = (MAX_TRIES - tryNo) + 1 := by omega
  refine ⟨?_, ?_, ?_, ?_, ?_, ?_⟩
  · intro status hst ho
    rw [reqWithRetries, hfuel]
    rcases hst with rfl | rfl | rfl
    · have hsw : strStartsWith (Response.error 401 "HTTP error") "401 " = true := by decide
      simp [rwrGo, ho, classify, hsw]
    · have hsw : strStartsWith (Response.error 403 "HTTP error") "403 " = true := by decide
      simp [rwrGo, ho, classify, hsw]
    · have hsw : strStartsWith (Response.error 404 "HTTP error") "404 " = true := by decide
      simp [rwrGo, ho, classify, hsw]
  · intro body ho
    rw [reqWithRetries, hfuel]
    simp only [rwrGo, ho, classify]
  · intro e hcl h1 h2 h3 hef hlt
    rw [reqWithRetries, hfuel]
    simp only [rwrGo, hcl]
    rw [if_pos ⟨by simp [h1], by simp [h2], by simp [h3], hef, hlt⟩]
    have hfuel2 : MAX_TRIES - tryNo = MAX_TRIES + 1 - (tryNo + 1) := by omega
    rw [hfuel2]
    simp only [reqWithRetries]
    simp
  · intro e he hf heof
    rw [reqWithRetries]
    exact rwrGo_exhaust t o ef e he hf heof _ tryNo pool rfl htry
  · intro ctx pl line req u p hp hc hu hp2
    have hnot1 : ¬(ctx.config.restrict_getpwuid ∧ req.cmd = Cmd.GetPwUid
        ∧ ctx.uid > 0 ∧ req.arg0 ≠ ctx.uid) := by
      intro hcon
      rw [hc] at hcon
      exact Cmd.noConfusion hcon.2.1
    have hnot2 : ¬(ctx.config.restrict_getgrgid ∧ req.cmd = Cmd.GetGrGid
        ∧ ctx.uid > 0 ∧ req.arg0 ≥ 1000 ∧ req.arg0 ≠ ctx.gid) := by
      intro hcon
      rw [hc] at hcon
      exact Cmd.noConfusion hcon.2.1
    simp only [process, hp]
    rw [if_neg hnot1, if_neg hnot2, if_pos hc]
    rw [List.get?_eq_getElem?] at hu hp2
    simp [hu, hp2, List.get?_eq_getElem?]
  · intro ctx pl line req u hp hc hu
    have hnot1 : ¬(ctx.config.restrict_getpwuid ∧ req.cmd = Cmd.GetPwUid
        ∧ ctx.uid > 0 ∧ req.arg0 ≠ ctx.uid) := by
      intro hcon
      rw [hc] at hcon
      exact Cmd.noConfusion hcon.2.1
    have hnot2 : ¬(ctx.config.restrict_getgrgid ∧ req.cmd = Cmd.GetGrGid
        ∧ ctx.uid > 0 ∧ req.arg0 ≥ 1000 ∧ req.arg0 ≠ ctx.gid) := by
      intro hcon
      rw [hc] at hcon
      exact Cmd.noConfusion hcon.2.1
    have hnot3 : ¬(req.cmd = Cmd.Auth) := by
      intro hcon
      rw [hc] at hcon
      exact Cmd.noConfusion hcon
    have hnot4 : ¬(req.cmd = Cmd.Servers) := by
      intro hcon
      rw [hc] at hcon
      exact Cmd.noConfusion hcon
    simp only [process, hp]
    rw [if_neg hnot1, if_neg hnot2, if_neg hnot3, if_neg hnot4]
    rw [List.get?_eq_getElem?] at hu
    simp [hc, hu]

/-- C3 counterexample: the claim says retries stop after MAX_TRIES = 8
attempts for every map-lookup or auth request. A map lookup enters the
engine at try number 0 (`process` dispatch shown on `getpwnam foo`), and a
map lookup whose every attempt fails with a non-JSON 500 makes 9 attempts,
not 8, before the last error is surfaced. -/
theorem c3_counterexample :
    process ⟨⟨false, false, "default", ["srv1"]⟩, 1000, 1000⟩ ⟨true, 0⟩ "getpwnam foo"
      = some (.http (.mapLookup "passwd" "username" "foo" 1000) 0)
    ∧ (reqWithRetries id (fun _ => .notJson 500) (fun _ => false) ⟨true, 0⟩ 0).attempts = 9
    ∧ (reqWithRetries id (fun _ => .notJson 500) (fun _ => false) ⟨true, 0⟩ 0).result
        = Response.error 500 "HTTP error"
    ∧ (9 : Nat) ≠ MAX_TRIES := by decide

/-- C3 witness: a 404 is final after one attempt with the pool untouched;
an auth-style engine entry (try number 1) against servers that always fail
transiently makes exactly MAX_TRIES attempts. -/
theorem c3_witness :
    reqWithRetries id (fun _ => .notJson 404) (fun _ => false) ⟨true, 5⟩ 0
      = ⟨Response.error 404 "HTTP error", ⟨true, 5⟩, 1⟩
    ∧ (reqWithRetries id (fun _ => .notJson 500) (fun _ => false) ⟨true, 0⟩ 1).attempts
        = MAX_TRIES := by
  constructor
  · exact (c3_retry_policy_amended id (fun _ => .notJson 404) (fun _ => false) ⟨true, 5⟩ 0
      (by decide)).1 404 (Or.inr (Or.inr rfl)) rfl
  · have hsw : strStartsWith (Response.error 500 "HTTP error") "401 " = false
        ∧ strStartsWith (Response.error 500 "HTTP error") "403 " = false
        ∧ strStartsWith (Response.error 500 "HTTP error") "404 " = false := by decide
    exact ((c3_retry_policy_amended id (fun _ => .notJson 500) (fun _ => false) ⟨true, 0⟩ 1
      (by decide)).2.2.2.1 (fun _ => Response.error 500 "HTTP error")
      (fun _ => rfl) (fun _ => hsw) (fun _ => rfl)).1

/-- C1 (amended): for a POST to the auth endpoint with a map-based Auth
descriptor (found domain, decoded body, `lua_function` unset, `map`/`key`
set, supported map type): a verifying stored hash yields 200; a
non-verifying hash and an absent username both yield the same reply — HTTP
status 403 whose JSON error body carries code 401 and message "Password
incorrect"; a missing auth map yields 404, as does a domain without auth
enabled. -/
theorem c1_auth_responses_amended (ai : AuthInfo) (a : AuthRef) (luaR : SrvResp)
    (mt : String) (lookupRes : Except WnError Json) (verify : String → String → Bool)
    (m k : String) (hlua : a.lua_function = none) (hm : a.map = some m) (hk : a.key = some k)
    (hmt : mt = "gdbm" ∨ mt = "json") :
    (∀ j hash, lookupRes = .ok j → (j.getField "passwd").bind Json.asStr = some hash →
      check_unix_password verify ai.password hash = true →
      handle_auth true (some ai) (some a) luaR (some mt) lookupRes verify
        = some (.result 200 (.obj [])))
    ∧ (∀ j hash, lookupRes = .ok j → (j.getField "passwd").bind Json.asStr = some hash →
      check_unix_password verify ai.password hash = false →
      handle_auth true (some ai) (some a) luaR (some mt) lookupRes verify
        = some (.err 403 401 "Password incorrect"))
    ∧ (lookupRes = .error .KeyNotFound →
      handle_auth true (some ai) (some a) luaR (some mt) lookupRes verify
        = some (.err 403 401 "Password incorrect"))
    ∧ (handle_auth true (some ai) (some a) luaR none lookupRes verify
        = some (.err 404 404 "Associated auth map not found"))
    ∧ (handle_auth true (some ai) none luaR (some mt) lookupRes verify
        = some (.err 404 404 "Authentication not enabled")) := by
  refine ⟨?_, ?_, ?_, ?_, ?_⟩
  · intro j hash hj hh hc
    rcases hmt with rfl | rfl <;>
      simp [handle_auth, hlua, hm, hk, auth_map, hj, hh, hc, json_result, json_error]
  · intro j hash hj hh hc
    rcases hmt with rfl | rfl <;>
      simp [handle_auth, hlua, hm, hk, auth_map, hj, hh, hc, json_result, json_error]
  · intro hj
    rcases hmt with rfl | rfl <;>
      simp [handle_auth, hlua, hm, hk, auth_map, hj, json_result, json_error]
  · simp [handle_auth, hlua, hm, hk, auth_map, json_error]
  · simp [handle_auth, json_error]

/-- C1 witness: a matching hash is accepted with 200; the same request
against a missing auth map yields 404. -/
theorem c1_witness :
    handle_auth true (some ⟨"alice", "s3cret"⟩) (some ⟨none, some "passwd", some "username"⟩)
        (.err 0 0 "") (some "gdbm") (.ok (.obj [("passwd", .str "$6$h")]))
        (fun p h => p = "s3cret" ∧ h = "$6$h")
      = some (.result 200 (.obj []))
    ∧ handle_auth true (some ⟨"alice", "s3cret"⟩) (some ⟨none, some "passwd", some "username"⟩)
        (.err 0 0 "") none (.ok (.obj [("passwd", .str "$6$h")]))
        (fun p h => p = "s3cret" ∧ h = "$6$h")
      = some (.err 404 404 "Associated auth map not found") :=
  ⟨(c1_auth_responses_amended ⟨"alice", "s3cret"⟩ ⟨none, some "passwd", some "username"⟩
      (.err 0 0 "") "gdbm" (.ok (.obj [("passwd", .str "$6$h")]))
      (fun p h => p = "s3cret" ∧ h = "$6$h") "passwd" "username"
      rfl rfl rfl (Or.inl rfl)).1
    (.obj [("passwd", .str "$6$h")]) "$6$h" rfl rfl (by decide),
   (c1_auth_responses_amended ⟨"alice", "s3cret"⟩ ⟨none, some "passwd", some "username"⟩
      (.err 0 0 "") "gdbm" (.ok (.obj [("passwd", .str "$6$h")]))
      (fun p h => p = "s3cret" ∧ h = "$6$h") "passwd" "username"
      rfl rfl rfl (Or.inl rfl)).2.2.2.1⟩

/-- C1 counterexample: the claim says a wrong password yields HTTP status
401 and an absent username yields 404. In the code both cases return
`json_error(FORBIDDEN, Some(UNAUTHORIZED), "Password incorrect")`: HTTP
status 403 with body code 401 — the absent-user case is folded into
`Ok(false)` by `auth_map` (webnis.rs line 163), so it is not 404, and the
HTTP status of the wrong-password case is not 401. -/
theorem c1_counterexample :
    handle_auth true (some ⟨"alice", "wrong"⟩) (some ⟨none, some "passwd", some "username"⟩)
        (.err 0 0 "") (some "gdbm") (.error .KeyNotFound) (fun _ _ => false)
      = some (.err 403 401 "Password incorrect")
    ∧ handle_auth true (some ⟨"alice", "wrong"⟩) (some ⟨none, some "passwd", some "username"⟩)
        (.err 0 0 "") (some "gdbm") (.ok (.obj [("passwd", .str "$6$h")])) (fun _ _ => false)
      = some (.err 403 401 "Password incorrect")
    ∧ (SrvResp.err 403 401 "Password incorrect").status ≠ 401
    ∧ (SrvResp.err 403 401 "Password incorrect").status ≠ 404 :=
  ⟨rfl, rfl, by decide, by decide⟩

/-- C4 (amended): in the NSS buffer protocol, a caller buffer shorter than
24 bytes fails with InsufficientBuffer (mapped to errno ERANGE = 34 and
NSS TryAgain = -2) leaving the record cleared; because `add_string` rejects
a string ending exactly at the end of the buffer (the `>=` check,
buffer.rs line 48), a buffer of exactly the needed space (8-byte pointer
area plus NUL-terminated strings) also fails with the same error — one
EXTRA byte beyond the needed space is required for success, which then
fills every record field. On a late failure the already written fields
keep their values, so the record is only fully cleared when the failure is
immediate. -/
theorem c4_buffer_protocol_amended (name passwd gecos dir shell : String)
    (uid gid buflen : Nat) :
    (buflen < 24 →
      fillPasswd buflen name passwd uid gid gecos dir shell
        = (PwRecord.reset, .error .InsufficientBuffer))
    ∧ (24 ≤ buflen → buflen ≤ pwNeeded name passwd gecos dir shell →
      (fillPasswd buflen name passwd uid gid gecos dir shell).2
        = .error .InsufficientBuffer)
    ∧ (24 ≤ buflen → pwNeeded name passwd gecos dir shell < buflen →
      fillPasswd buflen name passwd uid gid gecos dir shell
        = (⟨some name, some passwd, uid, gid, some gecos, some dir, some shell⟩, .ok ()))
    ∧ nss_error .InsufficientBuffer = (34, nssTryAgain) := by
  refine ⟨?_, ?_, ?_, rfl⟩
  · intro h
    simp only [fillPasswd, Buffer.new]
    rw [if_pos h]
  · intro h24 hle
    simp only [pwNeeded] at hle
    by_cases c1 : 8 + strLen name + 1 ≥ buflen
    · simp [fillPasswd, Buffer.new, pwSetStr, Buffer.add_string, c1,
        show ¬ (buflen < 24) by omega]
    · by_cases c2 : 8 + strLen name + 1 + strLen passwd + 1 ≥ buflen
      · simp [fillPasswd, Buffer.new, pwSetStr, Buffer.add_string, c1, c2,
          show ¬ (buflen < 24) by omega]
      · by_cases c3 : 8 + strLen name + 1 + strLen passwd + 1 + strLen gecos + 1 ≥ buflen
        · simp [fillPasswd, Buffer.new, pwSetStr, Buffer.add_string, c1, c2, c3,
            show ¬ (buflen < 24) by omega]
        · by_cases c4 : 8 + strLen name + 1 + strLen passwd + 1 + strLen gecos + 1
              + strLen dir + 1 ≥ buflen
          · simp [fillPasswd, Buffer.new, pwSetStr, Buffer.add_string, c1, c2, c3, c4,
              show ¬ (buflen < 24) by omega]
          · have c5 : 8 + strLen name + 1 + strLen passwd + 1 + strLen gecos + 1
                + strLen dir + 1 + strLen shell + 1 ≥ buflen := by omega
            simp [fillPasswd, Buffer.new, pwSetStr, Buffer.add_string, c1, c2, c3, c4, c5,
              show ¬ (buflen < 24) by omega]
  · intro h24 hlt
    simp only [pwNeeded] at hlt
    simp [fillPasswd, Buffer.new, pwSetStr, Buffer.add_string,
      show ¬ (buflen < 24) by omega,
      show ¬ (8 + strLen name + 1 ≥ buflen) by omega,
      show ¬ (8 + strLen name + 1 + strLen passwd + 1 ≥ buflen) by omega,
      show ¬ (8 + strLen name + 1 + strLen passwd + 1 + strLen gecos + 1 ≥ buflen)
        by omega,
      show ¬ (8 + strLen name + 1 + strLen passwd + 1 + strLen gecos + 1
        + strLen dir + 1 ≥ buflen) by omega,
      show ¬ (8 + strLen name + 1 + strLen passwd + 1 + strLen gecos + 1
        + strLen dir + 1 + strLen shell + 1 ≥ buflen) by omega]

/-- C4 witness: with the repository's own test record (mikevs), the needed
space is 44 bytes: a 45-byte buffer succeeds and fills every field, a
30-byte buffer fails with InsufficientBuffer, and a 10-byte buffer fails
already in `Buffer::new`. -/
theorem c4_witness :
    fillPasswd 45 "mikevs" "x" 1000 50 "gecos" "/home/mikevs" "/bin/sh"
      = (⟨some "mikevs", some "x", 1000, 50, some "gecos", some "/home/mikevs",
          some "/bin/sh"⟩, .ok ())
    ∧ (fillPasswd 30 "mikevs" "x" 1000 50 "gecos" "/home/mikevs" "/bin/sh").2
        = .error .InsufficientBuffer
    ∧ fillPasswd 10 "mikevs" "x" 1000 50 "gecos" "/home/mikevs" "/bin/sh"
        = (PwRecord.reset, .error .InsufficientBuffer) :=
  ⟨(c4_buffer_protocol_amended "mikevs" "x" "gecos" "/home/mikevs" "/bin/sh"
      1000 50 45).2.2.1 (by decide) (by decide),
   (c4_buffer_protocol_amended "mikevs" "x" "gecos" "/home/mikevs" "/bin/sh"
      1000 50 30).2.1 (by decide) (by decide),
   (c4_buffer_protocol_amended "mikevs" "x" "gecos" "/home/mikevs" "/bin/sh"
      1000 50 10).1 (by decide)⟩

/-- C4 counterexample: the claim says a buffer of exactly the needed space
(here 44 bytes for the mikevs record) succeeds and that the failing call
leaves the record cleared. The exactly-sized call fails with
InsufficientBuffer (the `>=` check), and after it the already-written
fields (pw_name here) are not cleared. -/
theorem c4_counterexample :
    pwNeeded "mikevs" "x" "gecos" "/home/mikevs" "/bin/sh" = 44
    ∧ (fillPasswd 44 "mikevs" "x" 1000 50 "gecos" "/home/mikevs" "/bin/sh").2
        = .error .InsufficientBuffer
    ∧ (fillPasswd 44 "mikevs" "x" 1000 50 "gecos" "/home/mikevs" "/bin/sh").1.pw_name
        = some "mikevs" :=
  ⟨by decide, rfl, by decide⟩

/-- C5 (amended): for the `line` format, `line_to_json` splits the backend
value on newlines and returns a JSON object mapping 1-based indices
(rendered as string keys) to the segments, each parsed as an i64 number
when possible and kept as a string otherwise; for a newline-free value the
result is the single-entry object with key "1". The result is always an
object, never a bare JSON string. -/
theorem c5_line_format_amended (jp : String → Except Unit Json) (line : String)
    (output : Option (List (String × String))) :
    (('\n' ∉ line.data) →
      line_to_json jp line .Line none
        = .ok (.obj [("1", (NumOrText.parse line).toJson)]))
    ∧ (∃ fields, line_to_json jp line .Line output = .ok (.obj fields))
    ∧ (∀ s fields, Json.obj fields ≠ Json.str s) := by
  refine ⟨?_, ?_, fun s fields h => Json.noConfusion h⟩
  · intro h
    simp only [line_to_json, Fields.from_line]
    rw [show ("\n".data.headD '\x00') = '\n' from rfl]
    rw [if_neg (by decide)]
    rw [rustSplitChar_eq_single '\n' line h]
    rw [show (List.enum [line]) = [(0, line)] from rfl]
    rw [show (List.map (fun fv => (NumOrText.number (fv.1 + 1), NumOrText.parse fv.2))
          [((0 : Nat), line)]) = [(NumOrText.number 1, NumOrText.parse line)] from rfl]
    rw [show fieldsToJson [(NumOrText.number 1, NumOrText.parse line)]
          = Json.obj [("1", (NumOrText.parse line).toJson)] from rfl]
  · cases output with
    | none => exact ⟨_, rfl⟩
    | some out => exact ⟨_, rfl⟩

/-- C5 witness: a passwd-style line under the `line` format comes back as
the object mapping "1" to the whole line as a string. -/
theorem c5_witness :
    line_to_json (fun _ => .error ()) "truus:x:1042:42" .Line none
      = .ok (.obj [("1", .str "truus:x:1042:42")]) :=
  (c5_line_format_amended (fun _ => .error ()) "truus:x:1042:42" none).1 (by decide)

/-- C5 counterexample: the claim says the `line` format returns the value
as a single JSON string for every input. On input "foo" the code returns
the object with key "1" (via `Fields::from_line` with separator newline,
format.rs line 274), which is not a JSON string. -/
theorem c5_counterexample :
    line_to_json (fun _ => .error ()) "foo" .Line none = .ok (.obj [("1", .str "foo")])
    ∧ ∀ s, line_to_json (fun _ => .error ()) "foo" .Line none ≠ .ok (.str s) :=
  ⟨rfl, fun s h => by
    rw [show line_to_json (fun _ => .error ()) "foo" Format.Line none
          = .ok (.obj [("1", .str "foo")]) from rfl] at h
    simp at h⟩
